import Mathlib

/-!
Verification of the Ditto event store (src/db/events.ts and the stats
aggregator) against its natural-language specification.  Pure functions of the
source are translated directly; the persistence layer is modelled as explicit
state (lists of rows) with SQL insert/transaction/rollback semantics made
explicit.  Helpers that live in repository modules not present in the sources
(utils.ts, kinds.ts, schemas/nostr.ts) are modelled from the spec and say so in
their doc comments.
-/

namespace Ditto

/-- Modelled from the spec: the repository's isNostrId helper (module utils.ts,
absent from the sources) accepts well-formed identifiers (hash-shaped):
64 lowercase hexadecimal characters. -/
def isNostrId (s : String) : Bool :=
  s.length == 64 && s.data.all (fun c => c.isDigit || (decide ('a' ≤ c) && decide (c ≤ 'f')))

/-- Modelled from the spec: the repository's isURL helper (module utils.ts,
absent from the sources) accepts well-formed URLs; modelled as a nonempty
scheme followed by the scheme separator and a nonempty remainder. -/
def isURL (s : String) : Bool :=
  match s.splitOn "://" with
  | scheme :: rest :: _ => !scheme.isEmpty && !rest.isEmpty
  | _ => false

/-- Modelled from the spec: the repository's isParameterizedReplaceableKind
helper (module kinds.ts, absent from the sources): the parameterized-replaceable
kind range, 30000 <= kind < 40000. -/
def isParameterizedReplaceableKind (k : Nat) : Bool :=
  decide (30000 ≤ k) && decide (k < 40000)

/-- A Nostr event as stored in the events table (src/db/events.ts).  The tags
column round-trips through JSON serialization on insert and query; the
round-trip is modelled as the identity. -/
structure Event where
  id : String
  kind : Nat
  pubkey : String
  created_at : Int
  content : String
  tags : List (List String)
  sig : String
deriving DecidableEq, Repr

/-- Contextual data about an event (EventData in types.ts, absent from the
sources; its only use in src/db/events.ts is the JS truthiness of data.user,
whether the author is a locally registered user). -/
structure EventData where
  user : Bool
deriving DecidableEq, Repr

/-- The per-tag-name indexing conditions (tagConditions in src/db/events.ts).
A name absent from the table yields none (JS: tagConditions[name] is undefined,
so shouldIndex is undefined, hence falsy). -/
def tagCondition (name : String) (event : Event) (data : EventData) (count : Nat)
    (value : String) : Option Bool :=
  if name = "d" then some (decide (count = 0) && isParameterizedReplaceableKind event.kind)
  else if name = "e" then some (decide (count < 15) && isNostrId value)
  else if name = "media" then some ((data.user || decide (count < 4)) && isURL value)
  else if name = "p" then some ((decide (count < 15) || decide (event.kind = 3)) && isNostrId value)
  else if name = "proxy" then some (decide (count = 0) && isURL value)
  else if name = "q" then some (decide (count = 0) && decide (event.kind = 1) && isNostrId value)
  else if name = "t" then some (decide (count < 5) && decide (value.length < 50))
  else none

/-- The reduce loop of filterIndexableTags (src/db/events.ts): counts holds the
number of occurrences of each tag name seen so far, res the accepted tags.  The
condition receives the occurrence index (tagCounts[name] - 1 after the
increment, i.e. the pre-increment count), and a tag is kept only when its value
is JS-truthy (nonempty), shorter than 200 characters, and the condition for its
name holds. -/
def fitGo (event : Event) (data : EventData) :
    List (List String) → (String → Nat) → List (List String) → List (List String)
  | [], _, res => res
  | tag :: rest, counts, res =>
    let name := tag.headD ""
    let value := (tag[1]?).getD ""
    let counts' : String → Nat := fun n => if n = name then counts name + 1 else counts n
    let shouldIndex := (tagCondition name event data (counts name) value).getD false
    let res' := if value ≠ "" ∧ value.length < 200 ∧ shouldIndex = true then res ++ [tag] else res
    fitGo event data rest counts' res'

/-- Return only the tags that should be indexed (filterIndexableTags in
src/db/events.ts). -/
def filterIndexableTags (event : Event) (data : EventData) : List (List String) :=
  fitGo event data event.tags (fun _ => 0) []

/-- A row of the tags table: (event_id, tag, value). -/
structure TagRow where
  event_id : String
  tag : String
  value : String
deriving DecidableEq, Repr

/-- The tag rows insertEvent writes for an event (indexTags inside insertEvent):
one row per indexable tag, destructured as its first two elements. -/
def tagRowsFor (event : Event) (data : EventData) : List TagRow :=
  (filterIndexableTags event data).map
    (fun t => ⟨event.id, t.headD "", (t[1]?).getD ""⟩)

/-- Scan a JSON string literal body up to the closing quote (helper of the
modelled profile-content parser; no escape handling in the model). -/
def scanLit : List Char → Option (List Char × List Char)
  | [] => none
  | c :: rest =>
    if c = '"' then some ([], rest)
    else (scanLit rest).map (fun p => (c :: p.1, p.2))

/-- Take one JSON string literal, returning it and the remaining input. -/
def takeStringLit : List Char → Option (String × List Char)
  | c :: rest => if c = '"' then (scanLit rest).map (fun p => (String.mk p.1, p.2)) else none
  | [] => none

/-- The right brace character, written by code to keep braces out of string
and character literals. -/
def rbrace : Char := Char.ofNat 125

/-- The left brace character. -/
def lbrace : Char := Char.ofNat 123

/-- Parse the comma-separated string pairs of a JSON object body, requiring the
closing brace at the very end (helper of the modelled profile-content parser). -/
def parsePairs : Nat → List Char → Option (List (String × String))
  | 0, _ => none
  | fuel + 1, cs =>
    match takeStringLit cs with
    | none => none
    | some (k, rest) =>
      match rest with
      | ':' :: rest2 =>
        match takeStringLit rest2 with
        | none => none
        | some (v, rest3) =>
          match rest3 with
          | [c] => if c = rbrace then some [(k, v)] else none
          | ',' :: rest4 => (parsePairs fuel rest4).map (fun l => (k, v) :: l)
          | _ => none
      | _ => none

/-- Modelled from the spec: the JSON parse underlying jsonMetaContentSchema
(module schemas/nostr.ts, absent from the sources), which parses event content
as structured profile data.  The model accepts a flat JSON object of string
fields without escapes or whitespace and rejects anything else. -/
def parseJsonObject (s : String) : Option (List (String × String)) :=
  match s.data with
  | c :: rest =>
    if c = lbrace then
      match rest with
      | [c2] => if c2 = rbrace then some [] else none
      | _ => parsePairs (rest.length + 1) rest
    else none
  | [] => none

/-- The structured profile data jsonMetaContentSchema yields: optional
display-name, verified-identifier and biography fields. -/
structure MetaContent where
  name : Option String
  nip05 : Option String
  about : Option String
deriving DecidableEq, Repr

/-- Modelled from the spec: jsonMetaContentSchema.parse.  Fails (zod parse
throws) on content that is not a valid profile-metadata object. -/
def parseMetaContent (s : String) : Except String MetaContent :=
  match parseJsonObject s with
  | none => .error "invalid profile metadata"
  | some pairs => .ok ⟨pairs.lookup "name", pairs.lookup "nip05", pairs.lookup "about"⟩

/-- Build search content for a user (buildUserSearchContent in
src/db/events.ts): the name, nip05 and about fields of the parsed profile
content, JS-truthy ones only, joined with newlines.  A parse failure
propagates. -/
def buildUserSearchContent (event : Event) : Except String String :=
  (parseMetaContent event.content).map
    (fun m => String.intercalate "\n"
      (([m.name, m.nip05, m.about].filterMap id).filter (fun s => !s.isEmpty)))

/-- Build a search index entry from the event (buildSearchContent in
src/db/events.ts): profile fields for kind 0, raw content for kind 1, the
empty string otherwise. -/
def buildSearchContent (event : Event) : Except String String :=
  match event.kind with
  | 0 => buildUserSearchContent event
  | 1 => .ok event.content
  | _ => .ok ""

/-- A row of the events_fts full-text table. -/
structure SearchRow where
  id : String
  content : String
deriving DecidableEq, Repr

/-- The events_fts row indexSearch (inside insertEvent) writes: none when the
search content is falsy, else the content truncated by substring(0, 1000). -/
def indexSearchRow (event : Event) : Except String (Option SearchRow) :=
  match buildSearchContent event with
  | .error e => .error e
  | .ok sc =>
    if sc.isEmpty then .ok none
    else .ok (some ⟨event.id, String.mk (sc.data.take 1000)⟩)

/-- The persisted store: events, tag index, full-text index, and the local
users table (consumed read-only by the local filter joins). -/
structure DB where
  events : List Event
  tags : List TagRow
  events_fts : List SearchRow
  users : List String
deriving DecidableEq, Repr

/-- Errors of the persistence layer: SqliteError with a numeric code, or a
non-Sqlite JS error (for example a thrown content-parse error). -/
inductive DBError where
  | sqlite (code : Nat)
  | jsError (msg : String)
deriving DecidableEq, Repr

/-- The errors insertEvent's catch swallows: a SqliteError with code 19
(SQLITE_CONSTRAINT).  In this model the transaction itself raises code 19 only
for a duplicate primary key on events.id. -/
def DBError.swallowed : DBError → Bool
  | .sqlite 19 => true
  | _ => false

/-- The body of insertEvent's transaction (src/db/events.ts): insert the event
row (primary-key violation when the id already exists), the indexable tag rows,
and the search row.  All three writes succeed or the transaction fails as a
whole. -/
def runInsertTx (db : DB) (event : Event) (data : EventData) : Except DBError DB :=
  if db.events.any (fun r => r.id == event.id) then .error (.sqlite 19)
  else
    match indexSearchRow event with
    | .error msg => .error (.jsError msg)
    | .ok fts? =>
      .ok { db with
        events := db.events ++ [event],
        tags := db.tags ++ tagRowsFor event data,
        events_fts := db.events_fts ++ fts?.toList }

/-- insertEvent (src/db/events.ts): run the transaction and swallow duplicate
errors; the optional fault injects a storage-layer failure in place of the
transaction.  The returned DB is the post-state, which on any error is the
pre-state (transactional rollback). -/
def insertEventRun (fault : Option DBError) (db : DB) (event : Event) (data : EventData) :
    DB × Option DBError :=
  let tx : Except DBError DB :=
    match fault with
    | some err => .error err
    | none => runInsertTx db event data
  match tx with
  | .ok db' => (db', none)
  | .error err => if err.swallowed then (db, none) else (db, some err)

/-- A filter (DittoFilter in filter.ts, consumed by src/db/events.ts): optional
ids/kinds/authors sets, inclusive since/until bounds, a per-filter limit, tag
constraints (the # keys, one entry per constrained tag name), the local flag
and the free-text search query.  The field for the local flag is named
localFlag because local is a Lean keyword. -/
structure DittoFilter where
  ids : Option (List String) := none
  kinds : Option (List Nat) := none
  authors : Option (List String) := none
  since : Option Int := none
  until' : Option Int := none
  limit : Option Nat := none
  tagConstraints : List (String × List String) := []
  localFlag : Option Bool := none
  search : Option String := none
deriving DecidableEq, Repr

/-- Modelled from the spec: the SQLite FTS match operator (external engine),
modelled as substring containment of the query in the indexed content. -/
def ftsMatch (content query : String) : Bool :=
  decide (List.IsInfix query.data content.data)

/-- The conjunction of the scalar where-clauses getFilterQuery adds for the
ids, kinds, authors, since and until fields (absent fields add no clause;
since/until are inclusive). -/
def baseMatches (f : DittoFilter) (r : Event) : Bool :=
  (match f.ids with | some xs => decide (r.id ∈ xs) | none => true) &&
  (match f.kinds with | some xs => decide (r.kind ∈ xs) | none => true) &&
  (match f.authors with | some xs => decide (r.pubkey ∈ xs) | none => true) &&
  (match f.since with | some s => decide (s ≤ r.created_at) | none => true) &&
  (match f.until' with | some u => decide (r.created_at ≤ u) | none => true)

/-- The number of tags-table rows the left join for one tag constraint pairs
with an event row: rows of that event whose name is the constrained name and
whose value is in the constraint's set (the join then behaves as an inner join
because the where-clause rejects the null-padded row). -/
def tagConstraintCount (db : DB) (eid : String) (c : String × List String) : Nat :=
  (db.tags.filter (fun tr => tr.event_id == eid && tr.tag == c.1 && decide (tr.value ∈ c.2))).length

/-- The number of users-table rows the local-flag join pairs with an event row:
an inner join on the author for local true, an anti-join (left join plus
is-null check) for local false, no join when the flag is absent. -/
def localCount (db : DB) (f : DittoFilter) (r : Event) : Nat :=
  match f.localFlag with
  | some true => (db.users.filter (fun u => u == r.pubkey)).length
  | some false => if r.pubkey ∈ db.users then 0 else 1
  | none => 1

/-- The number of events_fts rows the search join pairs with an event row; an
empty search string is JS-falsy, so no join is added for it. -/
def searchCount (db : DB) (f : DittoFilter) (r : Event) : Nat :=
  match f.search with
  | some q =>
    if q.isEmpty then 1
    else (db.events_fts.filter (fun fr => fr.id == r.id && ftsMatch fr.content q)).length
  | none => 1

/-- How many times one event row appears in the output of the select built by
getFilterQuery: zero unless every scalar clause holds, else the product of the
join multiplicities (standard SQL join semantics: one output row per
combination of matching joined rows). -/
def rowMultiplicity (db : DB) (f : DittoFilter) (r : Event) : Nat :=
  if baseMatches f r then
    ((f.tagConstraints.map (tagConstraintCount db r.id)).prod) * localCount db f r * searchCount db f r
  else 0

/-- The order-by relation of every query: created_at descending. -/
def createdDesc (a b : Event) : Prop := b.created_at ≤ a.created_at

instance : DecidableRel createdDesc := fun a b => Int.decLe b.created_at a.created_at

instance : IsTotal Event createdDesc := ⟨fun a b => Int.le_total b.created_at a.created_at⟩

instance : IsTrans Event createdDesc := ⟨fun _ _ _ hab hbc => le_trans hbc hab⟩

/-- Sort event rows by created_at descending (the order-by clause). -/
def sortByCreatedAtDesc (l : List Event) : List Event :=
  l.insertionSort createdDesc

/-- The result set of the single select built by getFilterQuery
(src/db/events.ts): matching event rows with join multiplicity, ordered by
created_at descending, truncated to the filter's own limit when present. -/
def getFilterQuery (db : DB) (f : DittoFilter) : List Event :=
  let rows := (sortByCreatedAtDesc db.events).flatMap
    (fun r => List.replicate (rowMultiplicity db f r) r)
  match f.limit with
  | some n => rows.take n
  | none => rows

/-- The result set of a SQL UNION of two selects: distinct rows of both sides,
ordered by the compound query's order-by clause (created_at descending). -/
def sqlUnion (a b : List Event) : List Event :=
  sortByCreatedAtDesc ((a ++ b).dedup)

/-- getFiltersQuery (src/db/events.ts): the per-filter queries combined with
reduce(union); a single filter stays a single select, with no union to remove
duplicate rows. -/
def getFiltersQuery (db : DB) (filters : List DittoFilter) : List Event :=
  match filters with
  | [] => []
  | f :: rest => rest.foldl (fun acc g => sqlUnion acc (getFilterQuery db g)) (getFilterQuery db f)

/-- Options of getFilters. -/
structure GetFiltersOpts where
  limit : Option Nat := none
deriving DecidableEq, Repr

/-- getFilters (src/db/events.ts): empty filter list short-circuits to the
empty result; otherwise the union query, truncated to opts.limit when it is a
number.  The per-row tag JSON round-trip is the identity in this model. -/
def getFilters (db : DB) (filters : List DittoFilter) (opts : GetFiltersOpts) : List Event :=
  if filters.isEmpty then []
  else
    match opts.limit with
    | some n => (getFiltersQuery db filters).take n
    | none => getFiltersQuery db filters

/-- A row of the pubkey_stats table. -/
structure PubkeyStatsRow where
  pubkey : String
  followers_count : Int
  following_count : Int
  notes_count : Int
deriving DecidableEq, Repr

/-- A row of the event_stats table. -/
structure EventStatsRow where
  event_id : String
  replies_count : Int
  reposts_count : Int
  reactions_count : Int
deriving DecidableEq, Repr

/-- The pubkey_stats counters (PubkeyStat in the stats module). -/
inductive PubkeyStat where
  | followers_count
  | following_count
  | notes_count
deriving DecidableEq, Repr

/-- The event_stats counters (EventStat in the stats module). -/
inductive EventStat where
  | replies_count
  | reposts_count
  | reactions_count
deriving DecidableEq, Repr

/-- Read one counter of a pubkey_stats row. -/
def PubkeyStatsRow.get : PubkeyStatsRow → PubkeyStat → Int
  | r, .followers_count => r.followers_count
  | r, .following_count => r.following_count
  | r, .notes_count => r.notes_count

/-- Write one counter of a pubkey_stats row. -/
def PubkeyStatsRow.set : PubkeyStatsRow → PubkeyStat → Int → PubkeyStatsRow
  | r, .followers_count, v => { r with followers_count := v }
  | r, .following_count, v => { r with following_count := v }
  | r, .notes_count, v => { r with notes_count := v }

/-- Read one counter of an event_stats row. -/
def EventStatsRow.get : EventStatsRow → EventStat → Int
  | r, .replies_count => r.replies_count
  | r, .reposts_count => r.reposts_count
  | r, .reactions_count => r.reactions_count

/-- Write one counter of an event_stats row. -/
def EventStatsRow.set : EventStatsRow → EventStat → Int → EventStatsRow
  | r, .replies_count, v => { r with replies_count := v }
  | r, .reposts_count, v => { r with reposts_count := v }
  | r, .reactions_count, v => { r with reactions_count := v }

/-- The stats tables. -/
structure StatsDB where
  pubkey_stats : List PubkeyStatsRow
  event_stats : List EventStatsRow
deriving DecidableEq, Repr

/-- incrementPubkeyStatQuery: insert a zeroed row carrying the delta in the
chosen counter, on primary-key conflict add the delta to the existing row's
counter instead. -/
def incrementPubkeyStatQuery (rows : List PubkeyStatsRow) (pk : String)
    (stat : PubkeyStat) (diff : Int) : List PubkeyStatsRow :=
  if rows.any (fun r => r.pubkey == pk) then
    rows.map (fun r => if r.pubkey == pk then r.set stat (r.get stat + diff) else r)
  else
    rows ++ [PubkeyStatsRow.set ⟨pk, 0, 0, 0⟩ stat diff]

/-- incrementEventStatQuery: the same upsert for event_stats. -/
def incrementEventStatQuery (rows : List EventStatsRow) (eid : String)
    (stat : EventStat) (diff : Int) : List EventStatsRow :=
  if rows.any (fun r => r.event_id == eid) then
    rows.map (fun r => if r.event_id == eid then r.set stat (r.get stat + diff) else r)
  else
    rows ++ [EventStatsRow.set ⟨eid, 0, 0, 0⟩ stat diff]

/-- findFirstTag: the second element of the first tag with the given name
(undefined when there is no such tag or it has no second element). -/
def findFirstTag (event : Event) (name : String) : Option String :=
  (event.tags.find? (fun t => t.headD "" == name)).bind (fun t => t[1]?)

/-- updateStatsQuery (stats module): dispatch on the kind (the JS switch,
written as the equivalent if-chain); kinds 6 and 7 only act when the first
e-tag value is JS-truthy (present and nonempty). -/
def updateStatsQuery (st : StatsDB) (event : Event) : Option StatsDB :=
  let firstE := (findFirstTag event "e").getD ""
  if event.kind = 1 then
    some { st with
      pubkey_stats := incrementPubkeyStatQuery st.pubkey_stats event.pubkey .notes_count 1 }
  else if event.kind = 6 then
    if firstE.isEmpty then none
    else some { st with
      event_stats := incrementEventStatQuery st.event_stats firstE .reposts_count 1 }
  else if event.kind = 7 then
    if firstE.isEmpty then none
    else some { st with
      event_stats := incrementEventStatQuery st.event_stats firstE .reactions_count 1 }
  else none

/-- updateStats (stats module): execute the query when there is one, else do
nothing. -/
def updateStats (st : StatsDB) (event : Event) : StatsDB :=
  (updateStatsQuery st event).getD st

/-- Look up one pubkey_stats counter, 0 when no row exists. -/
def pubkeyStatOf (st : StatsDB) (pk : String) (stat : PubkeyStat) : Int :=
  ((st.pubkey_stats.find? (fun r => r.pubkey == pk)).map (fun r => r.get stat)).getD 0

/-- Look up one event_stats counter, 0 when no row exists. -/
def eventStatOf (st : StatsDB) (eid : String) (stat : EventStat) : Int :=
  ((st.event_stats.find? (fun r => r.event_id == eid)).map (fun r => r.get stat)).getD 0

/-- The number of tags with the given name in a tag list. -/
def countName (n : String) (l : List (List String)) : Nat :=
  (l.filter (fun t => t.headD "" == n)).length

/-- The number of tag-index rows carrying the given tag name. -/
def countRowsNamed (n : String) (l : List TagRow) : Nat :=
  (l.filter (fun r => r.tag == n)).length

/-- n tags of the given name and value, for concrete test events. -/
def mkTags (n : Nat) (name v : String) : List (List String) :=
  List.replicate n [name, v]

/-- A well-formed 64-character identifier, for concrete test events. -/
def hex64 : String :=
  String.mk (List.replicate 64 'a')

end Ditto

namespace Ditto

theorem countRowsNamed_tagRowsFor (event : Event) (data : EventData) (n : String) :
    countRowsNamed n (tagRowsFor event data) = countName n (filterIndexableTags event data) := by
  rw [countRowsNamed, tagRowsFor, List.filter_map]
  simp [countName, Function.comp_def]

theorem countName_append (n : String) (a b : List (List String)) :
    countName n (a ++ b) = countName n a + countName n b := by
  simp [countName, List.filter_append]

theorem countName_single_eq {n : String} {tag : List String} (h : tag.headD "" = n) :
    countName n [tag] = 1 := by
  simp only [countName, List.filter_cons, List.filter_nil]
  rw [if_pos (show (tag.headD "" == n) = true by simp only [beq_iff_eq]; exact h)]
  rfl

theorem countName_single_ne {n : String} {tag : List String} (h : ¬ tag.headD "" = n) :
    countName n [tag] = 0 := by
  simp only [countName, List.filter_cons, List.filter_nil]
  rw [if_neg (show ¬ (tag.headD "" == n) = true by simp only [beq_iff_eq]; exact h)]
  rfl

/-- Cap invariant of the filterIndexableTags loop: if the condition for a tag
name rejects every occurrence index at or above K, then the loop adds at most
K - (occurrences already counted) tags of that name. -/
theorem countName_fitGo_le (event : Event) (data : EventData) (n : String) (K : Nat)
    (hcond : ∀ c v, K ≤ c → (tagCondition n event data c v).getD false = false) :
    ∀ (tags : List (List String)) (counts : String → Nat) (res : List (List String)),
      countName n (fitGo event data tags counts res) ≤ countName n res + (K - counts n) := by
  intro tags
  induction tags with
  | nil =>
    intro counts res
    simp only [fitGo]
    omega
  | cons tag rest ih =>
    intro counts res
    simp only [fitGo]
    by_cases hn : tag.headD "" = n
    · have hc' : (if n = tag.headD "" then counts (tag.headD "") + 1 else counts n)
          = counts n + 1 := by
        rw [if_pos hn.symm, hn]
      split
      · rename_i hpush
        rw [hn] at hpush
        have hlt : counts n < K := by
          by_contra hge
          have hfalse := hcond (counts n) ((tag[1]?).getD "") (Nat.le_of_not_lt hge)
          exact absurd hpush.2.2 (by simp [hfalse])
        have h := ih (fun m => if m = tag.headD "" then counts (tag.headD "") + 1 else counts m)
          (res ++ [tag])
        simp only [] at h
        rw [hc', countName_append, countName_single_eq hn] at h
        omega
      · have h := ih (fun m => if m = tag.headD "" then counts (tag.headD "") + 1 else counts m) res
        simp only [] at h
        rw [hc'] at h
        omega
    · have hc' : (if n = tag.headD "" then counts (tag.headD "") + 1 else counts n)
          = counts n := if_neg (fun h => hn h.symm)
      split
      · have h := ih (fun m => if m = tag.headD "" then counts (tag.headD "") + 1 else counts m)
          (res ++ [tag])
        simp only [] at h
        rw [hc', countName_append, countName_single_ne hn] at h
        omega
      · have h := ih (fun m => if m = tag.headD "" then counts (tag.headD "") + 1 else counts m) res
        simp only [] at h
        rw [hc'] at h
        omega

/-- Exact-count invariant of the loop: when every tag of the given name in the
input passes the value guards and its condition holds exactly below occurrence
index K, the loop adds exactly min (occurrences) (K - already counted) tags. -/
theorem countName_fitGo_eq (event : Event) (data : EventData) (n : String) (K : Nat) :
    ∀ (tags : List (List String)),
      (∀ t ∈ tags, t.headD "" = n →
        (t[1]?).getD "" ≠ "" ∧ ((t[1]?).getD "").length < 200 ∧
        (∀ c, (tagCondition n event data c ((t[1]?).getD "")).getD false = true ↔ c < K)) →
      ∀ (counts : String → Nat) (res : List (List String)),
      countName n (fitGo event data tags counts res)
        = countName n res + min (countName n tags) (K - counts n) := by
  intro tags
  induction tags with
  | nil =>
    intro _ counts res
    simp [fitGo, countName]
  | cons tag rest ih =>
    intro hval counts res
    have hrest := fun t ht => hval t (List.mem_cons_of_mem _ ht)
    simp only [fitGo]
    by_cases hn : tag.headD "" = n
    · have hhd := hval tag (List.mem_cons_self _ _) hn
      have hc' : (if n = tag.headD "" then counts (tag.headD "") + 1 else counts n)
          = counts n + 1 := by
        rw [if_pos hn.symm, hn]
      have hcount : countName n (tag :: rest) = countName n rest + 1 := by
        have heq : tag :: rest = [tag] ++ rest := rfl
        rw [heq, countName_append, countName_single_eq hn]
        omega
      split
      · rename_i hpush
        rw [hn] at hpush
        have hlt : counts n < K := (hhd.2.2 (counts n)).mp hpush.2.2
        have h := ih hrest
          (fun m => if m = tag.headD "" then counts (tag.headD "") + 1 else counts m)
          (res ++ [tag])
        simp only [] at h
        rw [hc', countName_append, countName_single_eq hn] at h
        rw [h, hcount]
        omega
      · rename_i hpush
        rw [hn] at hpush
        have hge : K ≤ counts n := by
          by_contra hlt
          exact hpush ⟨hhd.1, hhd.2.1, (hhd.2.2 (counts n)).mpr (Nat.lt_of_not_le hlt)⟩
        have h := ih hrest
          (fun m => if m = tag.headD "" then counts (tag.headD "") + 1 else counts m) res
        simp only [] at h
        rw [hc'] at h
        rw [h, hcount]
        omega
    · have hc' : (if n = tag.headD "" then counts (tag.headD "") + 1 else counts n)
          = counts n := if_neg (fun h => hn h.symm)
      have hcount : countName n (tag :: rest) = countName n rest := by
        have heq : tag :: rest = [tag] ++ rest := rfl
        rw [heq, countName_append, countName_single_ne hn]
        omega
      split
      · have h := ih hrest
          (fun m => if m = tag.headD "" then counts (tag.headD "") + 1 else counts m)
          (res ++ [tag])
        simp only [] at h
        rw [hc', countName_append, countName_single_ne hn] at h
        rw [h, hcount]
        omega
      · have h := ih hrest
          (fun m => if m = tag.headD "" then counts (tag.headD "") + 1 else counts m) res
        simp only [] at h
        rw [hc'] at h
        rw [h, hcount]

/-- The cap lemma specialized to the whole function and the stored rows. -/
theorem countRowsNamed_le_of_cond (event : Event) (data : EventData) (n : String) (K : Nat)
    (hcond : ∀ c v, K ≤ c → (tagCondition n event data c v).getD false = false) :
    countRowsNamed n (tagRowsFor event data) ≤ K := by
  rw [countRowsNamed_tagRowsFor]
  unfold filterIndexableTags
  have h := countName_fitGo_le event data n K hcond event.tags (fun _ => 0) []
  simpa [countName] using h

/-- The exact-count lemma specialized to the whole function and the stored
rows. -/
theorem countRowsNamed_eq_of_cond (event : Event) (data : EventData) (n : String) (K : Nat)
    (hval : ∀ t ∈ event.tags, t.headD "" = n →
      (t[1]?).getD "" ≠ "" ∧ ((t[1]?).getD "").length < 200 ∧
      (∀ c, (tagCondition n event data c ((t[1]?).getD "")).getD false = true ↔ c < K)) :
    countRowsNamed n (tagRowsFor event data) = min (countName n event.tags) K := by
  rw [countRowsNamed_tagRowsFor]
  unfold filterIndexableTags
  have h := countName_fitGo_eq event data n K event.tags hval (fun _ => 0) []
  simpa [countName] using h

/-- Every tag the filterIndexableTags loop emits was in the accumulator or
passed the value guards (JS-truthy and shorter than 200 characters). -/
theorem mem_fitGo (event : Event) (data : EventData) :
    ∀ (tags : List (List String)) (counts : String → Nat) (res : List (List String)) (t : List String),
      t ∈ fitGo event data tags counts res →
      t ∈ res ∨ ((t[1]?).getD "" ≠ "" ∧ ((t[1]?).getD "").length < 200) := by
  intro tags
  induction tags with
  | nil =>
    intro counts res t ht
    exact Or.inl (by simpa [fitGo] using ht)
  | cons tag rest ih =>
    intro counts res t ht
    simp only [fitGo] at ht
    split at ht
    · rename_i hpush
      rcases ih _ _ _ ht with hr | hv
      · rcases List.mem_append.mp hr with hr | hr
        · exact Or.inl hr
        · have : t = tag := by simpa using hr
          subst this
          exact Or.inr ⟨hpush.1, hpush.2.1⟩
      · exact Or.inr hv
    · exact ih _ _ _ ht

/-- C3 (amended): the stored tag-index rows per (event, tag name) respect the
caps d:1, e:15, q:1, t:5, proxy:1 for every event; the p cap of 15 holds for
every event that is not a kind-3 contact list, and the media cap of 4 for
every event not authored by a local identity.  (The claim's unconditional caps
for p-tags of kind-3 events and media-tags of local authors fail on the code;
see the counterexample.) -/
theorem tagCaps_amended (event : Event) (data : EventData) :
    countRowsNamed "d" (tagRowsFor event data) ≤ 1 ∧
    countRowsNamed "e" (tagRowsFor event data) ≤ 15 ∧
    countRowsNamed "q" (tagRowsFor event data) ≤ 1 ∧
    countRowsNamed "t" (tagRowsFor event data) ≤ 5 ∧
    countRowsNamed "proxy" (tagRowsFor event data) ≤ 1 ∧
    (event.kind ≠ 3 → countRowsNamed "p" (tagRowsFor event data) ≤ 15) ∧
    (data.user = false → countRowsNamed "media" (tagRowsFor event data) ≤ 4) := by
  refine ⟨?_, ?_, ?_, ?_, ?_, fun hk => ?_, fun hu => ?_⟩
  · exact countRowsNamed_le_of_cond event data "d" 1
      (fun c v hc => by
        have h0 : ¬ c = 0 := by omega
        simp [tagCondition, h0])
  · exact countRowsNamed_le_of_cond event data "e" 15
      (fun c v hc => by
        have h0 : ¬ c < 15 := by omega
        simp [tagCondition, h0])
  · exact countRowsNamed_le_of_cond event data "q" 1
      (fun c v hc => by
        have h0 : ¬ c = 0 := by omega
        simp [tagCondition, h0])
  · exact countRowsNamed_le_of_cond event data "t" 5
      (fun c v hc => by
        have h0 : ¬ c < 5 := by omega
        simp [tagCondition, h0])
  · exact countRowsNamed_le_of_cond event data "proxy" 1
      (fun c v hc => by
        have h0 : ¬ c = 0 := by omega
        simp [tagCondition, h0])
  · exact countRowsNamed_le_of_cond event data "p" 15
      (fun c v hc => by
        have h0 : ¬ c < 15 := by omega
        simp [tagCondition, h0, hk])
  · exact countRowsNamed_le_of_cond event data "media" 4
      (fun c v hc => by
        have h0 : ¬ c < 4 := by omega
        simp [tagCondition, h0, hu])

set_option maxRecDepth 8000 in
/-- C3 counterexample: a kind-3 contact list with 16 well-formed p-tags stores
16 p-rows, exceeding the claimed cap of 15. -/
theorem tagCaps_counterexample :
    countRowsNamed "p" (tagRowsFor ⟨"x", 3, "A", 0, "", mkTags 16 "p" hex64, "s"⟩ ⟨false⟩) = 16 ∧
    15 < countRowsNamed "p" (tagRowsFor ⟨"x", 3, "A", 0, "", mkTags 16 "p" hex64, "s"⟩ ⟨false⟩) := by
  constructor <;> decide

set_option maxRecDepth 8000 in
/-- C3 amended-claim witness: a concrete event that is not a contact list and
whose author is not local satisfies the p and media caps. -/
theorem tagCaps_amended_witness :
    countRowsNamed "p" (tagRowsFor ⟨"x", 1, "A", 0, "", mkTags 16 "p" hex64, "s"⟩ ⟨false⟩) ≤ 15 ∧
    countRowsNamed "media" (tagRowsFor ⟨"x", 1, "A", 0, "", mkTags 16 "p" hex64, "s"⟩ ⟨false⟩) ≤ 4 :=
  ⟨(tagCaps_amended ⟨"x", 1, "A", 0, "", mkTags 16 "p" hex64, "s"⟩ ⟨false⟩).2.2.2.2.2.1 (by decide),
   (tagCaps_amended ⟨"x", 1, "A", 0, "", mkTags 16 "p" hex64, "s"⟩ ⟨false⟩).2.2.2.2.2.2 rfl⟩

/-- C6 (amended): an event whose 20 e-tags all carry well-formed identifier
values stores exactly 15 e-rows, and an event whose 20 t-tags all carry
nonempty values shorter than 50 characters stores exactly 5 t-rows.  (As
written, with no condition on the values, the claim fails: see the
counterexample, where 20 t-tags with empty values store 0 rows.) -/
theorem tagCapExact_amended (event : Event) (data : EventData) :
    ((∀ t ∈ event.tags, t.headD "" = "e" → isNostrId ((t[1]?).getD "") = true) →
      countName "e" event.tags = 20 →
      countRowsNamed "e" (tagRowsFor event data) = 15) ∧
    ((∀ t ∈ event.tags, t.headD "" = "t" →
        (t[1]?).getD "" ≠ "" ∧ ((t[1]?).getD "").length < 50) →
      countName "t" event.tags = 20 →
      countRowsNamed "t" (tagRowsFor event data) = 5) := by
  constructor
  · intro hv h20
    have heq := countRowsNamed_eq_of_cond event data "e" 15 ?_
    · rw [heq, h20]
      omega
    · intro t ht hname
      have hid := hv t ht hname
      have hlen : ((t[1]?).getD "").length = 64 := by
        have := hid
        simp only [isNostrId, Bool.and_eq_true, beq_iff_eq] at this
        exact this.1
      refine ⟨?_, by omega, ?_⟩
      · intro hemp
        rw [hemp] at hlen
        simp at hlen
      · intro c
        simp [tagCondition, hid]
  · intro hv h20
    have heq := countRowsNamed_eq_of_cond event data "t" 5 ?_
    · rw [heq, h20]
      omega
    · intro t ht hname
      have hval := hv t ht hname
      refine ⟨hval.1, by omega, ?_⟩
      intro c
      simp [tagCondition, hval.2]

set_option maxRecDepth 8000 in
/-- C6 counterexample: 20 t-tags with empty values all fail the JS truthiness
guard on the value, so 0 t-rows are stored, not the claimed 5 (each value has
length 0 < 50). -/
theorem tagCapExact_counterexample :
    countRowsNamed "t" (tagRowsFor ⟨"x", 1, "A", 0, "", mkTags 20 "t" "", "s"⟩ ⟨false⟩) = 0 ∧
    countRowsNamed "t" (tagRowsFor ⟨"x", 1, "A", 0, "", mkTags 20 "t" "", "s"⟩ ⟨false⟩) ≠ 5 := by
  constructor <;> decide

set_option maxRecDepth 8000 in
/-- C6 amended-claim witness: a concrete event with 20 well-formed e-tags and
20 nonempty short t-tags stores exactly 15 e-rows and 5 t-rows. -/
theorem tagCapExact_amended_witness :
    countRowsNamed "e" (tagRowsFor
      ⟨"x", 1, "A", 0, "", mkTags 20 "e" hex64 ++ mkTags 20 "t" "topic", "s"⟩ ⟨false⟩) = 15 ∧
    countRowsNamed "t" (tagRowsFor
      ⟨"x", 1, "A", 0, "", mkTags 20 "e" hex64 ++ mkTags 20 "t" "topic", "s"⟩ ⟨false⟩) = 5 :=
  ⟨(tagCapExact_amended ⟨"x", 1, "A", 0, "", mkTags 20 "e" hex64 ++ mkTags 20 "t" "topic", "s"⟩
      ⟨false⟩).1 (by decide) (by decide),
   (tagCapExact_amended ⟨"x", 1, "A", 0, "", mkTags 20 "e" hex64 ++ mkTags 20 "t" "topic", "s"⟩
      ⟨false⟩).2 (by decide) (by decide)⟩

/-- C7: a tag occurrence whose value is longer than 200 characters is never
indexed: it cannot appear in the output of filterIndexableTags, whatever its
name, occurrence count and shape, so no tag row is stored for it. -/
theorem valueLengthCeiling (event : Event) (data : EventData) (t : List String)
    (h : 200 < ((t[1]?).getD "").length) :
    t ∉ filterIndexableTags event data := by
  intro hmem
  rcases mem_fitGo event data event.tags (fun _ => 0) [] t hmem with h0 | hv
  · simp at h0
  · exact absurd hv.2 (by omega)

set_option maxRecDepth 8000 in
/-- C1: inserting an event whose id already exists is a success no-op leaving
the store unchanged; any injected persistence error that is not the swallowed
duplicate-key error is propagated; and within the model the swallowed error
(SqliteError code 19) arises in the transaction only from a duplicate id. -/
theorem insertEvent_duplicate_noop (db : DB) (event : Event) (data : EventData) (err : DBError) :
    (db.events.any (fun r => r.id == event.id) = true →
      insertEventRun none db event data = (db, none)) ∧
    (err.swallowed = false →
      insertEventRun (some err) db event data = (db, some err)) ∧
    (runInsertTx db event data = Except.error (DBError.sqlite 19) →
      db.events.any (fun r => r.id == event.id) = true) := by
  refine ⟨fun hdup => ?_, fun hsw => ?_, fun herr => ?_⟩
  · simp [insertEventRun, runInsertTx, hdup, DBError.swallowed]
  · simp [insertEventRun, hsw]
  · by_contra hdup
    have hf : db.events.any (fun r => r.id == event.id) = false := by
      cases h : db.events.any (fun r => r.id == event.id)
      · rfl
      · exact absurd h hdup
    rw [runInsertTx, if_neg (by simp [hf])] at herr
    rcases hs : indexSearchRow event with msg | o
    · rw [hs] at herr
      simp at herr
    · rw [hs] at herr
      simp at herr

set_option maxRecDepth 8000 in
/-- C1 witness: re-inserting an id already present is a success no-op, and an
injected non-duplicate storage failure is propagated unchanged. -/
theorem insertEvent_duplicate_noop_witness :
    insertEventRun none ⟨[⟨"i", 5, "A", 0, "c", [], "s"⟩], [], [], []⟩
        ⟨"i", 5, "A", 0, "c2", [], "s"⟩ ⟨false⟩
      = (⟨[⟨"i", 5, "A", 0, "c", [], "s"⟩], [], [], []⟩, none) ∧
    insertEventRun (some (.jsError "disk full")) ⟨[], [], [], []⟩
        ⟨"i", 5, "A", 0, "c", [], "s"⟩ ⟨false⟩
      = (⟨[], [], [], []⟩, some (.jsError "disk full")) :=
  ⟨(insertEvent_duplicate_noop ⟨[⟨"i", 5, "A", 0, "c", [], "s"⟩], [], [], []⟩
      ⟨"i", 5, "A", 0, "c2", [], "s"⟩ ⟨false⟩ (.jsError "disk full")).1 (by decide),
   (insertEvent_duplicate_noop ⟨[], [], [], []⟩
      ⟨"i", 5, "A", 0, "c", [], "s"⟩ ⟨false⟩ (.jsError "disk full")).2.1 rfl⟩

/-- C4: insertEvent is atomic: whenever an error is reported the store is
unchanged (transactional rollback, no partial rows), and on silent success
either the insert was a duplicate no-op leaving the store unchanged or all
three writes (event row, tag rows, search row) landed together. -/
theorem insertEvent_atomicity (fault : Option DBError) (db : DB) (event : Event)
    (data : EventData) :
    (∀ err, (insertEventRun fault db event data).2 = some err →
      (insertEventRun fault db event data).1 = db) ∧
    ((insertEventRun fault db event data).2 = none →
      (insertEventRun fault db event data).1 = db ∨
      ∃ o, indexSearchRow event = Except.ok o ∧
        (insertEventRun fault db event data).1 =
          { db with
            events := db.events ++ [event],
            tags := db.tags ++ tagRowsFor event data,
            events_fts := db.events_fts ++ o.toList }) := by
  rcases fault with _ | err
  · by_cases hdup : db.events.any (fun r => r.id == event.id) = true
    · have hrun : insertEventRun none db event data = (db, none) := by
        simp [insertEventRun, runInsertTx, hdup, DBError.swallowed]
      rw [hrun]
      exact ⟨fun err h => by simp at h, fun _ => Or.inl rfl⟩
    · have hf : db.events.any (fun r => r.id == event.id) = false := by
        cases h : db.events.any (fun r => r.id == event.id)
        · rfl
        · exact absurd h hdup
      rcases hs : indexSearchRow event with msg | o
      · have hrun : insertEventRun none db event data = (db, some (.jsError msg)) := by
          simp [insertEventRun, runInsertTx, hf, hs, DBError.swallowed]
        rw [hrun]
        exact ⟨fun err h => rfl, fun h => by simp at h⟩
      · have hrun : insertEventRun none db event data =
            ({ db with
               events := db.events ++ [event],
               tags := db.tags ++ tagRowsFor event data,
               events_fts := db.events_fts ++ o.toList }, none) := by
          simp [insertEventRun, runInsertTx, hf, hs]
        rw [hrun]
        exact ⟨fun err h => by simp at h, fun _ => Or.inr ⟨o, rfl, rfl⟩⟩
  · by_cases hsw : err.swallowed = true
    · have hrun : insertEventRun (some err) db event data = (db, none) := by
        simp [insertEventRun, hsw]
      rw [hrun]
      exact ⟨fun e h => by simp at h, fun _ => Or.inl rfl⟩
    · have hswf : err.swallowed = false := by
        cases h : err.swallowed
        · rfl
        · exact absurd h hsw
      have hrun : insertEventRun (some err) db event data = (db, some err) := by
        simp [insertEventRun, hswf]
      rw [hrun]
      exact ⟨fun e h => rfl, fun h => by simp at h⟩

set_option maxRecDepth 8000 in
/-- C4 witness: a successful insert of a fresh event reports no error, and the
post-state carries all three writes. -/
theorem insertEvent_atomicity_witness :
    (insertEventRun none ⟨[], [], [], []⟩ ⟨"i", 1, "A", 0, "hello", [["t", "x"]], "s"⟩
        ⟨false⟩).2 = none ∧
    ((insertEventRun none ⟨[], [], [], []⟩ ⟨"i", 1, "A", 0, "hello", [["t", "x"]], "s"⟩
        ⟨false⟩).1 = ⟨[], [], [], []⟩ ∨
      ∃ o, indexSearchRow ⟨"i", 1, "A", 0, "hello", [["t", "x"]], "s"⟩ = Except.ok o ∧
        (insertEventRun none ⟨[], [], [], []⟩ ⟨"i", 1, "A", 0, "hello", [["t", "x"]], "s"⟩
            ⟨false⟩).1 =
          { (⟨[], [], [], []⟩ : DB) with
            events := [⟨"i", 1, "A", 0, "hello", [["t", "x"]], "s"⟩],
            tags := tagRowsFor ⟨"i", 1, "A", 0, "hello", [["t", "x"]], "s"⟩ ⟨false⟩,
            events_fts := o.toList }) :=
  ⟨rfl, (insertEvent_atomicity none ⟨[], [], [], []⟩
      ⟨"i", 1, "A", 0, "hello", [["t", "x"]], "s"⟩ ⟨false⟩).2 rfl⟩

/-- C10: a kind-0 event whose content fails profile parsing makes insertEvent
propagate the parse error (the duplicate handling does not swallow it), and no
event, tag or search row is stored: the post-state is the pre-state. -/
theorem insertEvent_parseError (db : DB) (event : Event) (data : EventData) (msg : String)
    (hk : event.kind = 0)
    (hp : parseMetaContent event.content = Except.error msg)
    (hfresh : db.events.any (fun r => r.id == event.id) = false) :
    insertEventRun none db event data = (db, some (.jsError msg)) := by
  have hbs : buildSearchContent event = Except.error msg := by
    simp [buildSearchContent, hk, buildUserSearchContent, hp, Except.map]
  have hs : indexSearchRow event = Except.error msg := by
    simp [indexSearchRow, hbs]
  simp [insertEventRun, runInsertTx, hfresh, hs, DBError.swallowed]

/-- C10 witness: a concrete unparsable kind-0 event is rejected with the parse
error and the store stays empty. -/
theorem insertEvent_parseError_witness :
    insertEventRun none ⟨[], [], [], []⟩ ⟨"i", 0, "A", 0, "oops", [], "s"⟩ ⟨false⟩
      = (⟨[], [], [], []⟩, some (.jsError "invalid profile metadata")) :=
  insertEvent_parseError ⟨[], [], [], []⟩ ⟨"i", 0, "A", 0, "oops", [], "s"⟩ ⟨false⟩
    "invalid profile metadata" rfl rfl rfl

/-- C5: search extraction: a kind-0 event yields the JS-truthy ones of the
parsed name, nip05 and about fields joined with newlines; a kind-1 event the
raw content; every other kind stores no search row; and every stored search
row's content is at most 1000 characters long. -/
theorem searchContent_spec (event : Event) :
    (∀ m, event.kind = 0 → parseMetaContent event.content = Except.ok m →
      buildSearchContent event = Except.ok (String.intercalate "\n"
        (([m.name, m.nip05, m.about].filterMap id).filter (fun s => !s.isEmpty)))) ∧
    (event.kind = 1 → buildSearchContent event = Except.ok event.content) ∧
    (event.kind ≠ 0 → event.kind ≠ 1 → indexSearchRow event = Except.ok none) ∧
    (∀ row, indexSearchRow event = Except.ok (some row) → row.content.length ≤ 1000) := by
  refine ⟨fun m hk hp => ?_, fun hk => ?_, fun h0 h1 => ?_, fun row hrow => ?_⟩
  · simp [buildSearchContent, hk, buildUserSearchContent, hp, Except.map]
  · simp [buildSearchContent, hk]
  · cases hk : event.kind with
    | zero => exact absurd hk h0
    | succ m =>
      cases m with
      | zero => exact absurd hk h1
      | succ l =>
        simp [indexSearchRow, buildSearchContent, hk]
        decide
  · rw [indexSearchRow] at hrow
    rcases hbs : buildSearchContent event with msg | sc
    · rw [hbs] at hrow
      simp at hrow
    · rw [hbs] at hrow
      by_cases hemp : sc.isEmpty
      · simp [hemp] at hrow
      · simp [hemp] at hrow
        rw [← hrow]
        simp only [String.length_mk, List.length_take]
        omega

set_option maxRecDepth 8000 in
/-- C5 witness: a concrete kind-0 profile yields its name as search content,
and a concrete stored search row respects the length bound. -/
theorem searchContent_spec_witness :
    buildSearchContent ⟨"i", 0, "A", 0, "\x7b\"name\":\"alice\"\x7d", [], "s"⟩
      = Except.ok "alice" ∧
    (⟨"i", "hi"⟩ : SearchRow).content.length ≤ 1000 :=
  ⟨by
    have h := (searchContent_spec ⟨"i", 0, "A", 0, "\x7b\"name\":\"alice\"\x7d", [], "s"⟩).1
      ⟨some "alice", none, none⟩ rfl (by rfl)
    simpa using h,
   (searchContent_spec ⟨"i", 1, "A", 0, "hi", [], "s"⟩).2.2.2 ⟨"i", "hi"⟩ (by rfl)⟩

theorem mem_sortByCreatedAtDesc {r : Event} {l : List Event} :
    r ∈ sortByCreatedAtDesc l ↔ r ∈ l := by
  simp [sortByCreatedAtDesc, List.mem_insertionSort]

theorem sorted_sortByCreatedAtDesc (l : List Event) :
    (sortByCreatedAtDesc l).Pairwise createdDesc :=
  List.sorted_insertionSort createdDesc l

theorem nodup_sortByCreatedAtDesc {l : List Event} (h : l.Nodup) :
    (sortByCreatedAtDesc l).Nodup :=
  ((List.perm_insertionSort createdDesc l).nodup_iff).mpr h

theorem sqlUnion_nodup (a b : List Event) : (sqlUnion a b).Nodup :=
  nodup_sortByCreatedAtDesc (List.nodup_dedup _)

theorem sqlUnion_sorted (a b : List Event) :
    (sqlUnion a b).Pairwise createdDesc :=
  sorted_sortByCreatedAtDesc _

theorem mem_sqlUnion {r : Event} {a b : List Event} :
    r ∈ sqlUnion a b ↔ r ∈ a ∨ r ∈ b := by
  simp [sqlUnion, mem_sortByCreatedAtDesc, List.mem_dedup]

theorem mem_foldl_sqlUnion (db : DB) :
    ∀ (gs : List DittoFilter) (acc : List Event) (r : Event),
      (r ∈ gs.foldl (fun acc g => sqlUnion acc (getFilterQuery db g)) acc ↔
        r ∈ acc ∨ ∃ g ∈ gs, r ∈ getFilterQuery db g) := by
  intro gs
  induction gs with
  | nil =>
    intro acc r
    simp
  | cons g rest ih =>
    intro acc r
    rw [List.foldl_cons, ih, mem_sqlUnion]
    constructor
    · rintro ((h | h) | ⟨g', hg', h⟩)
      · exact Or.inl h
      · exact Or.inr ⟨g, List.mem_cons_self _ _, h⟩
      · exact Or.inr ⟨g', List.mem_cons_of_mem _ hg', h⟩
    · rintro (h | ⟨g', hg', h⟩)
      · exact Or.inl (Or.inl h)
      · rcases List.mem_cons.mp hg' with rfl | hg'
        · exact Or.inl (Or.inr h)
        · exact Or.inr ⟨g', hg', h⟩

theorem foldl_sqlUnion_ne_nil (db : DB) :
    ∀ (gs : List DittoFilter) (acc : List Event), gs ≠ [] →
      ∃ a b, gs.foldl (fun acc g => sqlUnion acc (getFilterQuery db g)) acc = sqlUnion a b := by
  intro gs
  induction gs with
  | nil =>
    intro acc h
    exact absurd rfl h
  | cons g rest ih =>
    intro acc _
    cases rest with
    | nil => exact ⟨acc, getFilterQuery db g, rfl⟩
    | cons g2 rest2 =>
      rw [List.foldl_cons]
      exact ih _ (by simp)

theorem length_filter_pos {α : Type} (p : α → Bool) (l : List α) :
    0 < (l.filter p).length ↔ ∃ a ∈ l, p a = true := by
  rw [← List.countP_eq_length_filter]
  exact List.countP_pos_iff

theorem mem_getFilterQuery {db : DB} {f : DittoFilter} {r : Event} (hl : f.limit = none) :
    r ∈ getFilterQuery db f ↔ r ∈ db.events ∧ 0 < rowMultiplicity db f r := by
  rw [getFilterQuery, hl]
  constructor
  · intro hmem
    rcases List.mem_flatMap.mp hmem with ⟨r', hr', hrep⟩
    have heq := List.eq_of_mem_replicate hrep
    subst heq
    refine ⟨mem_sortByCreatedAtDesc.mp hr', ?_⟩
    rcases Nat.eq_zero_or_pos (rowMultiplicity db f r) with h0 | h
    · rw [h0] at hrep
      simp at hrep
    · exact h
  · rintro ⟨hr, hpos⟩
    exact List.mem_flatMap.mpr ⟨r, mem_sortByCreatedAtDesc.mpr hr,
      List.mem_replicate.mpr ⟨by omega, rfl⟩⟩

theorem rowMultiplicity_pos_iff {db : DB} {f : DittoFilter} {r : Event} :
    0 < rowMultiplicity db f r ↔
      baseMatches f r = true ∧
      (∀ c ∈ f.tagConstraints, 0 < tagConstraintCount db r.id c) ∧
      0 < localCount db f r ∧ 0 < searchCount db f r := by
  rw [rowMultiplicity]
  by_cases hb : baseMatches f r = true
  · rw [if_pos hb]
    simp only [hb, true_and]
    rw [Nat.pos_iff_ne_zero, Nat.mul_ne_zero_iff, Nat.mul_ne_zero_iff]
    constructor
    · rintro ⟨⟨hp, hloc⟩, hs⟩
      refine ⟨?_, by omega, by omega⟩
      intro c hc
      rcases Nat.eq_zero_or_pos (tagConstraintCount db r.id c) with h0 | h
      · exact absurd (List.prod_eq_zero_iff.mpr (List.mem_map.mpr ⟨c, hc, h0⟩)) hp
      · exact h
    · rintro ⟨hc, hloc, hs⟩
      refine ⟨⟨?_, by omega⟩, by omega⟩
      rw [Ne, List.prod_eq_zero_iff]
      intro hmem
      rcases List.mem_map.mp hmem with ⟨c, hcmem, hceq⟩
      exact absurd (hc c hcmem) (by omega)
  · rw [if_neg hb]
    simp [hb]

theorem localCount_pos_true {db : DB} {f : DittoFilter} {r : Event}
    (h : f.localFlag = some true) :
    (0 < localCount db f r ↔ r.pubkey ∈ db.users) := by
  rw [localCount, h]
  rw [length_filter_pos]
  constructor
  · rintro ⟨u, hu, hue⟩
    rw [show u = r.pubkey from by simpa using hue] at hu
    exact hu
  · intro hu
    exact ⟨r.pubkey, hu, by simp⟩

theorem localCount_pos_false {db : DB} {f : DittoFilter} {r : Event}
    (h : f.localFlag = some false) :
    (0 < localCount db f r ↔ r.pubkey ∉ db.users) := by
  rw [localCount, h]
  by_cases hm : r.pubkey ∈ db.users
  · simp [hm]
  · simp [hm]

theorem baseMatches_iff {f : DittoFilter} {r : Event} :
    baseMatches f r = true ↔
      (∀ xs, f.ids = some xs → r.id ∈ xs) ∧
      (∀ xs, f.kinds = some xs → r.kind ∈ xs) ∧
      (∀ xs, f.authors = some xs → r.pubkey ∈ xs) ∧
      (∀ s, f.since = some s → s ≤ r.created_at) ∧
      (∀ u, f.until' = some u → r.created_at ≤ u) := by
  obtain ⟨ids, kinds, authors, since, untl, limit, tcs, lf, se⟩ := f
  simp only [baseMatches, Bool.and_eq_true]
  cases ids <;> cases kinds <;> cases authors <;> cases since <;> cases untl <;>
    simp [decide_eq_true_eq, and_assoc]

/-- C2 (amended): for a request of at least two filters, getFilters returns a
duplicate-free result, sorted by created_at descending, truncated to
opts.limit when given, containing exactly the union of the per-filter result
sets (a subset of the union when opts.limit truncates); within one filter,
ids/kinds/authors are set memberships, since/until inclusive bounds, each tag
constraint demands a matching indexed tag row, the local flag a (anti-)join on
the users table and search an fts match.  (For a single filter the claim
fails: there is no union to remove duplicates, and a tag constraint matching
several indexed rows of one event repeats that event; see the
counterexample.) -/
theorem getFilters_union_spec (db : DB) (filters : List DittoFilter) (opts : GetFiltersOpts)
    (h2 : 2 ≤ filters.length) :
    (getFilters db filters opts).Nodup ∧
    (getFilters db filters opts).Pairwise (fun a b => b.created_at ≤ a.created_at) ∧
    (∀ n, opts.limit = some n → (getFilters db filters opts).length ≤ n) ∧
    (∀ r, r ∈ getFilters db filters opts → ∃ f ∈ filters, r ∈ getFilterQuery db f) ∧
    (opts.limit = none → ∀ r f, f ∈ filters → r ∈ getFilterQuery db f →
      r ∈ getFilters db filters opts) ∧
    (∀ f r, f.limit = none →
      (r ∈ getFilterQuery db f ↔ r ∈ db.events ∧
        (∀ xs, f.ids = some xs → r.id ∈ xs) ∧
        (∀ xs, f.kinds = some xs → r.kind ∈ xs) ∧
        (∀ xs, f.authors = some xs → r.pubkey ∈ xs) ∧
        (∀ s, f.since = some s → s ≤ r.created_at) ∧
        (∀ u, f.until' = some u → r.created_at ≤ u) ∧
        (∀ c ∈ f.tagConstraints, 0 < tagConstraintCount db r.id c) ∧
        0 < localCount db f r ∧ 0 < searchCount db f r)) := by
  obtain ⟨f1, rest, rfl⟩ : ∃ f1 rest, filters = f1 :: rest := by
    cases filters with
    | nil => simp at h2
    | cons a l => exact ⟨a, l, rfl⟩
  have hne : rest ≠ [] := by
    cases rest with
    | nil => simp at h2
    | cons _ _ => simp
  obtain ⟨a, b, hab⟩ := foldl_sqlUnion_ne_nil db rest (getFilterQuery db f1) hne
  have hquery : getFiltersQuery db (f1 :: rest) =
      rest.foldl (fun acc g => sqlUnion acc (getFilterQuery db g)) (getFilterQuery db f1) := rfl
  have hnodup : (getFiltersQuery db (f1 :: rest)).Nodup := by
    rw [hquery, hab]
    exact sqlUnion_nodup a b
  have hsorted : (getFiltersQuery db (f1 :: rest)).Pairwise createdDesc := by
    rw [hquery, hab]
    exact sqlUnion_sorted a b
  have hmem : ∀ r, r ∈ getFiltersQuery db (f1 :: rest) ↔
      ∃ f ∈ f1 :: rest, r ∈ getFilterQuery db f := by
    intro r
    rw [hquery, mem_foldl_sqlUnion]
    constructor
    · rintro (h | ⟨g, hg, h⟩)
      · exact ⟨f1, List.mem_cons_self _ _, h⟩
      · exact ⟨g, List.mem_cons_of_mem _ hg, h⟩
    · rintro ⟨g, hg, h⟩
      rcases List.mem_cons.mp hg with rfl | hg
      · exact Or.inl h
      · exact Or.inr ⟨g, hg, h⟩
  refine ⟨?_, ?_, ?_, ?_, ?_, ?_⟩
  · rcases ho : opts.limit with _ | n
    · simpa [getFilters, ho] using hnodup
    · have hg : getFilters db (f1 :: rest) opts = (getFiltersQuery db (f1 :: rest)).take n := by
        simp [getFilters, ho]
      rw [hg]
      exact (List.take_sublist _ _).nodup hnodup
  · rcases ho : opts.limit with _ | n
    · simpa [getFilters, ho] using hsorted
    · have hg : getFilters db (f1 :: rest) opts = (getFiltersQuery db (f1 :: rest)).take n := by
        simp [getFilters, ho]
      rw [hg]
      exact hsorted.sublist (List.take_sublist _ _)
  · intro n ho
    have hg : getFilters db (f1 :: rest) opts = (getFiltersQuery db (f1 :: rest)).take n := by
      simp [getFilters, ho]
    rw [hg]
    exact List.length_take_le _ _
  · intro r hr
    rcases ho : opts.limit with _ | n
    · rw [show getFilters db (f1 :: rest) opts = getFiltersQuery db (f1 :: rest) from by
        simp [getFilters, ho]] at hr
      exact (hmem r).mp hr
    · rw [show getFilters db (f1 :: rest) opts = (getFiltersQuery db (f1 :: rest)).take n from by
        simp [getFilters, ho]] at hr
      exact (hmem r).mp (List.take_subset _ _ hr)
  · intro ho r f hf hr
    rw [show getFilters db (f1 :: rest) opts = getFiltersQuery db (f1 :: rest) from by
      simp [getFilters, ho]]
    exact (hmem r).mpr ⟨f, hf, hr⟩
  · intro f r hlf
    rw [mem_getFilterQuery hlf, rowMultiplicity_pos_iff, baseMatches_iff]
    simp only [and_assoc]

set_option maxRecDepth 8000 in
/-- C2 counterexample: a single filter whose tag constraint matches two
indexed tag rows of the same event returns that event twice, because the
select joins once per matching tag row and a one-filter request has no union
to remove duplicates. -/
theorem getFilters_union_counterexample :
    getFilters ⟨[⟨"e1", 1, "A", 10, "c", [], "s"⟩], [⟨"e1", "t", "a"⟩, ⟨"e1", "t", "b"⟩], [], []⟩
        [{ tagConstraints := [("t", ["a", "b"])] }] {}
      = [⟨"e1", 1, "A", 10, "c", [], "s"⟩, ⟨"e1", 1, "A", 10, "c", [], "s"⟩] ∧
    ¬ (getFilters ⟨[⟨"e1", 1, "A", 10, "c", [], "s"⟩], [⟨"e1", "t", "a"⟩, ⟨"e1", "t", "b"⟩], [], []⟩
        [{ tagConstraints := [("t", ["a", "b"])] }] {}).Nodup := by
  constructor
  · decide
  · decide

/-- C2 amended-claim witness: a concrete two-filter request yields a
duplicate-free, descending-sorted result. -/
theorem getFilters_union_spec_witness :
    (getFilters ⟨[⟨"e1", 1, "A", 10, "c", [], "s"⟩, ⟨"e2", 6, "B", 20, "c", [], "s"⟩], [], [], []⟩
        [{ kinds := some [1], authors := some ["A"] }, { kinds := some [6] }] {}).Nodup ∧
    (getFilters ⟨[⟨"e1", 1, "A", 10, "c", [], "s"⟩, ⟨"e2", 6, "B", 20, "c", [], "s"⟩], [], [], []⟩
        [{ kinds := some [1], authors := some ["A"] }, { kinds := some [6] }] {}).Pairwise
      (fun a b => b.created_at ≤ a.created_at) :=
  ⟨(getFilters_union_spec ⟨[⟨"e1", 1, "A", 10, "c", [], "s"⟩, ⟨"e2", 6, "B", 20, "c", [], "s"⟩],
        [], [], []⟩
      [{ kinds := some [1], authors := some ["A"] }, { kinds := some [6] }] {} (by decide)).1,
   (getFilters_union_spec ⟨[⟨"e1", 1, "A", 10, "c", [], "s"⟩, ⟨"e2", 6, "B", 20, "c", [], "s"⟩],
        [], [], []⟩
      [{ kinds := some [1], authors := some ["A"] }, { kinds := some [6] }] {} (by decide)).2.1⟩

/-- C8: with no per-filter limit, the local flag partitions results by the
users table: local true returns exactly the otherwise-matching events whose
author is a locally registered user, local false exactly those whose author is
not. -/
theorem localFlag_partition (db : DB) (f : DittoFilter) (r : Event) (hl : f.limit = none) :
    (f.localFlag = some true →
      (r ∈ getFilterQuery db f ↔
        r ∈ getFilterQuery db { f with localFlag := none } ∧ r.pubkey ∈ db.users)) ∧
    (f.localFlag = some false →
      (r ∈ getFilterQuery db f ↔
        r ∈ getFilterQuery db { f with localFlag := none } ∧ r.pubkey ∉ db.users)) := by
  have hl' : ({ f with localFlag := none } : DittoFilter).limit = none := hl
  have hone : 0 < localCount db { f with localFlag := none } r := by
    rw [localCount]
    exact Nat.one_pos
  constructor
  · intro ht
    rw [mem_getFilterQuery hl, mem_getFilterQuery hl',
      rowMultiplicity_pos_iff, rowMultiplicity_pos_iff]
    constructor
    · rintro ⟨hev, hb, hc, hloc, hs⟩
      exact ⟨⟨hev, hb, hc, hone, hs⟩, (localCount_pos_true ht).mp hloc⟩
    · rintro ⟨⟨hev, hb, hc, _, hs⟩, hu⟩
      exact ⟨hev, hb, hc, (localCount_pos_true ht).mpr hu, hs⟩
  · intro hf
    rw [mem_getFilterQuery hl, mem_getFilterQuery hl',
      rowMultiplicity_pos_iff, rowMultiplicity_pos_iff]
    constructor
    · rintro ⟨hev, hb, hc, hloc, hs⟩
      exact ⟨⟨hev, hb, hc, hone, hs⟩, (localCount_pos_false hf).mp hloc⟩
    · rintro ⟨⟨hev, hb, hc, _, hs⟩, hu⟩
      exact ⟨hev, hb, hc, (localCount_pos_false hf).mpr hu, hs⟩

/-- C8 witness: with users = down to A only, authors A and B and local true,
membership for A's event reduces to membership without the flag plus A being
local. -/
theorem localFlag_partition_witness :
    ((⟨"e1", 1, "A", 10, "c", [], "s"⟩ : Event) ∈
        getFilterQuery
          ⟨[⟨"e1", 1, "A", 10, "c", [], "s"⟩, ⟨"e2", 1, "B", 20, "c", [], "s"⟩], [], [], ["A"]⟩
          { authors := some ["A", "B"], localFlag := some true } ↔
      (⟨"e1", 1, "A", 10, "c", [], "s"⟩ : Event) ∈
        getFilterQuery
          ⟨[⟨"e1", 1, "A", 10, "c", [], "s"⟩, ⟨"e2", 1, "B", 20, "c", [], "s"⟩], [], [], ["A"]⟩
          { authors := some ["A", "B"], localFlag := none } ∧ "A" ∈ ["A"]) :=
  (localFlag_partition
    ⟨[⟨"e1", 1, "A", 10, "c", [], "s"⟩, ⟨"e2", 1, "B", 20, "c", [], "s"⟩], [], [], ["A"]⟩
    { authors := some ["A", "B"], localFlag := some true }
    ⟨"e1", 1, "A", 10, "c", [], "s"⟩ rfl).1 rfl

theorem PubkeyStatsRow.pubkey_set (r : PubkeyStatsRow) (s : PubkeyStat) (v : Int) :
    (PubkeyStatsRow.set r s v).pubkey = r.pubkey := by
  cases s <;> rfl

theorem pubkeyRow_get_set_same (r : PubkeyStatsRow) (s : PubkeyStat) (v : Int) :
    (PubkeyStatsRow.set r s v).get s = v := by
  cases s <;> rfl

theorem pubkeyRow_get_set_other (r : PubkeyStatsRow) (s s' : PubkeyStat) (v : Int)
    (h : s' ≠ s) : (PubkeyStatsRow.set r s v).get s' = PubkeyStatsRow.get r s' := by
  cases s <;> cases s' <;> first | rfl | exact absurd rfl h

theorem EventStatsRow.event_id_set (r : EventStatsRow) (s : EventStat) (v : Int) :
    (EventStatsRow.set r s v).event_id = r.event_id := by
  cases s <;> rfl

theorem eventRow_get_set_same (r : EventStatsRow) (s : EventStat) (v : Int) :
    (EventStatsRow.set r s v).get s = v := by
  cases s <;> rfl

theorem eventRow_get_set_other (r : EventStatsRow) (s s' : EventStat) (v : Int)
    (h : s' ≠ s) : (EventStatsRow.set r s v).get s' = EventStatsRow.get r s' := by
  cases s <;> cases s' <;> first | rfl | exact absurd rfl h

theorem pubkey_upd_comp (pk : String) (stat : PubkeyStat) (diff : Int) (q : String) :
    ((fun r : PubkeyStatsRow => r.pubkey == q) ∘
        (fun r : PubkeyStatsRow =>
          if r.pubkey == pk then PubkeyStatsRow.set r stat (r.get stat + diff) else r))
      = (fun r : PubkeyStatsRow => r.pubkey == q) := by
  funext r
  by_cases hr : (r.pubkey == pk) = true
  · simp [Function.comp, hr, PubkeyStatsRow.pubkey_set]
  · simp [Function.comp, hr]

theorem event_upd_comp (eid : String) (stat : EventStat) (diff : Int) (q : String) :
    ((fun r : EventStatsRow => r.event_id == q) ∘
        (fun r : EventStatsRow =>
          if r.event_id == eid then EventStatsRow.set r stat (r.get stat + diff) else r))
      = (fun r : EventStatsRow => r.event_id == q) := by
  funext r
  by_cases hr : (r.event_id == eid) = true
  · simp [Function.comp, hr, EventStatsRow.event_id_set]
  · simp [Function.comp, hr]

/-- What the pubkey upsert leaves under any key: the incremented (or freshly
created) row under the target key, everything else untouched. -/
theorem find?_increment_pubkey (rows : List PubkeyStatsRow) (pk : String) (stat : PubkeyStat)
    (diff : Int) (q : String) :
    (incrementPubkeyStatQuery rows pk stat diff).find? (fun r => r.pubkey == q)
      = if q = pk then
          some (match rows.find? (fun r => r.pubkey == pk) with
            | some r0 => PubkeyStatsRow.set r0 stat (r0.get stat + diff)
            | none => PubkeyStatsRow.set ⟨pk, 0, 0, 0⟩ stat diff)
        else rows.find? (fun r => r.pubkey == q) := by
  rw [incrementPubkeyStatQuery]
  by_cases hany : rows.any (fun r => r.pubkey == pk) = true
  · rw [if_pos hany, List.find?_map, pubkey_upd_comp]
    by_cases hq : q = pk
    · subst hq
      rw [if_pos rfl]
      rcases hfind : rows.find? (fun r => r.pubkey == q) with _ | r0
      · exfalso
        rw [List.find?_eq_none] at hfind
        rcases List.any_eq_true.mp hany with ⟨x, hx, hpx⟩
        exact hfind x hx hpx
      · have hp := List.find?_some hfind
        rw [hfind, Option.map_some', if_pos hp]
    · rw [if_neg hq]
      rcases hfind : rows.find? (fun r => r.pubkey == q) with _ | r0
      · rw [hfind]
        rfl
      · have hp := List.find?_some hfind
        have hr0 : ¬ (r0.pubkey == pk) = true := by
          simp only [beq_iff_eq] at hp ⊢
          rw [hp]
          exact fun h => hq h
        rw [hfind, Option.map_some', if_neg hr0]
  · rw [if_neg hany, List.find?_append]
    have hnone : rows.find? (fun r => r.pubkey == pk) = none := by
      rw [List.find?_eq_none]
      intro x hx hpx
      exact hany (List.any_eq_true.mpr ⟨x, hx, hpx⟩)
    have hnew : (PubkeyStatsRow.set ⟨pk, 0, 0, 0⟩ stat diff).pubkey = pk :=
      PubkeyStatsRow.pubkey_set _ _ _
    by_cases hq : q = pk
    · subst hq
      rw [if_pos rfl, hnone]
      have hpos : ((PubkeyStatsRow.set ⟨q, 0, 0, 0⟩ stat diff).pubkey == q) = true := by
        simp [hnew]
      have hsingle : List.find? (fun r => r.pubkey == q)
          [PubkeyStatsRow.set ⟨q, 0, 0, 0⟩ stat diff]
          = some (PubkeyStatsRow.set ⟨q, 0, 0, 0⟩ stat diff) := by
        simp only [List.find?, hpos]
      rw [hsingle]
      rfl
    · rw [if_neg hq]
      have hne : ¬ ((PubkeyStatsRow.set ⟨pk, 0, 0, 0⟩ stat diff).pubkey == q) = true := by
        simp only [beq_iff_eq, hnew]
        exact fun h => hq h.symm
      have hsingle : List.find? (fun r => r.pubkey == q)
          [PubkeyStatsRow.set ⟨pk, 0, 0, 0⟩ stat diff] = none := by
        rw [List.find?_eq_none]
        intro x hx
        rw [List.mem_singleton] at hx
        subst hx
        exact hne
      rw [hsingle, Option.or_none]

/-- What the event upsert leaves under any key. -/
theorem find?_increment_event (rows : List EventStatsRow) (eid : String) (stat : EventStat)
    (diff : Int) (q : String) :
    (incrementEventStatQuery rows eid stat diff).find? (fun r => r.event_id == q)
      = if q = eid then
          some (match rows.find? (fun r => r.event_id == eid) with
            | some r0 => EventStatsRow.set r0 stat (r0.get stat + diff)
            | none => EventStatsRow.set ⟨eid, 0, 0, 0⟩ stat diff)
        else rows.find? (fun r => r.event_id == q) := by
  rw [incrementEventStatQuery]
  by_cases hany : rows.any (fun r => r.event_id == eid) = true
  · rw [if_pos hany, List.find?_map, event_upd_comp]
    by_cases hq : q = eid
    · subst hq
      rw [if_pos rfl]
      rcases hfind : rows.find? (fun r => r.event_id == q) with _ | r0
      · exfalso
        rw [List.find?_eq_none] at hfind
        rcases List.any_eq_true.mp hany with ⟨x, hx, hpx⟩
        exact hfind x hx hpx
      · have hp := List.find?_some hfind
        rw [hfind, Option.map_some', if_pos hp]
    · rw [if_neg hq]
      rcases hfind : rows.find? (fun r => r.event_id == q) with _ | r0
      · rw [hfind]
        rfl
      · have hp := List.find?_some hfind
        have hr0 : ¬ (r0.event_id == eid) = true := by
          simp only [beq_iff_eq] at hp ⊢
          rw [hp]
          exact fun h => hq h
        rw [hfind, Option.map_some', if_neg hr0]
  · rw [if_neg hany, List.find?_append]
    have hnone : rows.find? (fun r => r.event_id == eid) = none := by
      rw [List.find?_eq_none]
      intro x hx hpx
      exact hany (List.any_eq_true.mpr ⟨x, hx, hpx⟩)
    have hnew : (EventStatsRow.set ⟨eid, 0, 0, 0⟩ stat diff).event_id = eid :=
      EventStatsRow.event_id_set _ _ _
    by_cases hq : q = eid
    · subst hq
      rw [if_pos rfl, hnone]
      have hpos : ((EventStatsRow.set ⟨q, 0, 0, 0⟩ stat diff).event_id == q) = true := by
        simp [hnew]
      have hsingle : List.find? (fun r => r.event_id == q)
          [EventStatsRow.set ⟨q, 0, 0, 0⟩ stat diff]
          = some (EventStatsRow.set ⟨q, 0, 0, 0⟩ stat diff) := by
        simp only [List.find?, hpos]
      rw [hsingle]
      rfl
    · rw [if_neg hq]
      have hne : ¬ ((EventStatsRow.set ⟨eid, 0, 0, 0⟩ stat diff).event_id == q) = true := by
        simp only [beq_iff_eq, hnew]
        exact fun h => hq h.symm
      have hsingle : List.find? (fun r => r.event_id == q)
          [EventStatsRow.set ⟨eid, 0, 0, 0⟩ stat diff] = none := by
        rw [List.find?_eq_none]
        intro x hx
        rw [List.mem_singleton] at hx
        subst hx
        exact hne
      rw [hsingle, Option.or_none]

theorem pubkeyRow_get_zero (pk : String) (s : PubkeyStat) :
    PubkeyStatsRow.get ⟨pk, 0, 0, 0⟩ s = 0 := by
  cases s <;> rfl

theorem eventRow_get_zero (eid : String) (s : EventStat) :
    EventStatsRow.get ⟨eid, 0, 0, 0⟩ s = 0 := by
  cases s <;> rfl

/-- Closed form of a pubkey-stats counter after the upsert: the chosen counter
of the targeted pubkey grows by the delta (from 0 when the row is created),
and nothing else moves. -/
theorem pubkeyStatOf_increment (st : StatsDB) (pk : String) (stat : PubkeyStat)
    (diff : Int) (q : String) (s' : PubkeyStat) :
    pubkeyStatOf
        { st with pubkey_stats := incrementPubkeyStatQuery st.pubkey_stats pk stat diff } q s'
      = if q = pk then
          (if s' = stat then pubkeyStatOf st q s' + diff else pubkeyStatOf st q s')
        else pubkeyStatOf st q s' := by
  show (((incrementPubkeyStatQuery st.pubkey_stats pk stat diff).find?
      (fun r => r.pubkey == q)).map (fun r => r.get s')).getD 0 = _
  rw [find?_increment_pubkey]
  by_cases hq : q = pk
  · rw [if_pos hq, if_pos hq]
    rcases hf : st.pubkey_stats.find? (fun r => r.pubkey == pk) with _ | r0
    · by_cases hs : s' = stat
      · subst hs
        simp [pubkeyRow_get_set_same, pubkeyStatOf, hq, hf]
      · simp [pubkeyRow_get_set_other _ _ _ _ hs, pubkeyStatOf, hq, hf,
          pubkeyRow_get_zero, hs]
    · by_cases hs : s' = stat
      · subst hs
        simp [pubkeyRow_get_set_same, pubkeyStatOf, hq, hf]
      · simp [pubkeyRow_get_set_other _ _ _ _ hs, pubkeyStatOf, hq, hf, hs]
  · rw [if_neg hq, if_neg hq]
    rfl

/-- Closed form of an event-stats counter after the upsert. -/
theorem eventStatOf_increment (st : StatsDB) (eid : String) (stat : EventStat)
    (diff : Int) (q : String) (s' : EventStat) :
    eventStatOf
        { st with event_stats := incrementEventStatQuery st.event_stats eid stat diff } q s'
      = if q = eid then
          (if s' = stat then eventStatOf st q s' + diff else eventStatOf st q s')
        else eventStatOf st q s' := by
  show (((incrementEventStatQuery st.event_stats eid stat diff).find?
      (fun r => r.event_id == q)).map (fun r => r.get s')).getD 0 = _
  rw [find?_increment_event]
  by_cases hq : q = eid
  · rw [if_pos hq, if_pos hq]
    rcases hf : st.event_stats.find? (fun r => r.event_id == eid) with _ | r0
    · by_cases hs : s' = stat
      · subst hs
        simp [eventRow_get_set_same, eventStatOf, hq, hf]
      · simp [eventRow_get_set_other _ _ _ _ hs, eventStatOf, hq, hf,
          eventRow_get_zero, hs]
    · by_cases hs : s' = stat
      · subst hs
        simp [eventRow_get_set_same, eventStatOf, hq, hf]
      · simp [eventRow_get_set_other _ _ _ _ hs, eventStatOf, hq, hf, hs]
  · rw [if_neg hq, if_neg hq]
    rfl

theorem isSome_increment_pubkey (st : StatsDB) (pk : String) (stat : PubkeyStat) (diff : Int) :
    ((incrementPubkeyStatQuery st.pubkey_stats pk stat diff).find?
      (fun r => r.pubkey == pk)).isSome = true := by
  rw [find?_increment_pubkey, if_pos rfl]
  rfl

theorem isSome_increment_event (st : StatsDB) (eid : String) (stat : EventStat) (diff : Int) :
    ((incrementEventStatQuery st.event_stats eid stat diff).find?
      (fun r => r.event_id == eid)).isSome = true := by
  rw [find?_increment_event, if_pos rfl]
  rfl

/-- C9: updateStats adjusts exactly one counter, determined by the kind:
kind 1 adds 1 to the author's notes_count (all other pubkey counters, other
pubkeys and the event_stats table untouched, the row springing into existence
on first use); kind 6 with a nonempty first e-tag value adds 1 to that event's
reposts_count, kind 7 likewise to reactions_count (everything else untouched);
every other event, including kind 6 or 7 without a usable e-tag reference,
changes nothing at all.  Absent rows read as all-zero counters, so the
creation delta applies on top of zeroes. -/
theorem updateStats_spec (st : StatsDB) (event : Event) :
    (event.kind = 1 →
      pubkeyStatOf (updateStats st event) event.pubkey PubkeyStat.notes_count
        = pubkeyStatOf st event.pubkey PubkeyStat.notes_count + 1 ∧
      (∀ s, s ≠ PubkeyStat.notes_count →
        pubkeyStatOf (updateStats st event) event.pubkey s = pubkeyStatOf st event.pubkey s) ∧
      (∀ pk s, pk ≠ event.pubkey →
        pubkeyStatOf (updateStats st event) pk s = pubkeyStatOf st pk s) ∧
      (updateStats st event).event_stats = st.event_stats ∧
      ((updateStats st event).pubkey_stats.find?
        (fun r => r.pubkey == event.pubkey)).isSome = true) ∧
    (∀ v, event.kind = 6 → findFirstTag event "e" = some v → v ≠ "" →
      eventStatOf (updateStats st event) v EventStat.reposts_count
        = eventStatOf st v EventStat.reposts_count + 1 ∧
      (∀ s, s ≠ EventStat.reposts_count →
        eventStatOf (updateStats st event) v s = eventStatOf st v s) ∧
      (∀ eid s, eid ≠ v → eventStatOf (updateStats st event) eid s = eventStatOf st eid s) ∧
      (updateStats st event).pubkey_stats = st.pubkey_stats ∧
      ((updateStats st event).event_stats.find? (fun r => r.event_id == v)).isSome = true) ∧
    (∀ v, event.kind = 7 → findFirstTag event "e" = some v → v ≠ "" →
      eventStatOf (updateStats st event) v EventStat.reactions_count
        = eventStatOf st v EventStat.reactions_count + 1 ∧
      (∀ s, s ≠ EventStat.reactions_count →
        eventStatOf (updateStats st event) v s = eventStatOf st v s) ∧
      (∀ eid s, eid ≠ v → eventStatOf (updateStats st event) eid s = eventStatOf st eid s) ∧
      (updateStats st event).pubkey_stats = st.pubkey_stats ∧
      ((updateStats st event).event_stats.find? (fun r => r.event_id == v)).isSome = true) ∧
    (event.kind ≠ 1 → event.kind ≠ 6 → event.kind ≠ 7 → updateStats st event = st) ∧
    ((event.kind = 6 ∨ event.kind = 7) → (findFirstTag event "e").getD "" = "" →
      updateStats st event = st) := by
  refine ⟨?_, ?_, ?_, ?_, ?_⟩
  · intro hk
    have hq : updateStats st event =
        { st with pubkey_stats :=
            incrementPubkeyStatQuery st.pubkey_stats event.pubkey .notes_count 1 } := by
      rw [updateStats, updateStatsQuery]
      simp [hk]
    rw [hq]
    refine ⟨?_, ?_, ?_, rfl, isSome_increment_pubkey st event.pubkey .notes_count 1⟩
    · rw [pubkeyStatOf_increment]
      simp
    · intro s hs
      rw [pubkeyStatOf_increment]
      simp [hs]
    · intro pk s hpk
      rw [pubkeyStatOf_increment]
      simp [hpk]
  · intro v hk hfe hv
    have hie : v.isEmpty = false := by
      cases h : v.isEmpty
      · rfl
      · exact absurd ((String.isEmpty_iff v).mp h) hv
    have hq : updateStats st event =
        { st with event_stats :=
            incrementEventStatQuery st.event_stats v .reposts_count 1 } := by
      rw [updateStats, updateStatsQuery]
      simp [hk, hfe, hie]
    rw [hq]
    refine ⟨?_, ?_, ?_, rfl, isSome_increment_event st v .reposts_count 1⟩
    · rw [eventStatOf_increment]
      simp
    · intro s hs
      rw [eventStatOf_increment]
      simp [hs]
    · intro eid s heid
      rw [eventStatOf_increment]
      simp [heid]
  · intro v hk hfe hv
    have hie : v.isEmpty = false := by
      cases h : v.isEmpty
      · rfl
      · exact absurd ((String.isEmpty_iff v).mp h) hv
    have hq : updateStats st event =
        { st with event_stats :=
            incrementEventStatQuery st.event_stats v .reactions_count 1 } := by
      rw [updateStats, updateStatsQuery]
      simp [hk, hfe, hie]
    rw [hq]
    refine ⟨?_, ?_, ?_, rfl, isSome_increment_event st v .reactions_count 1⟩
    · rw [eventStatOf_increment]
      simp
    · intro s hs
      rw [eventStatOf_increment]
      simp [hs]
    · intro eid s heid
      rw [eventStatOf_increment]
      simp [heid]
  · intro h1 h6 h7
    rw [updateStats, updateStatsQuery]
    simp [h1, h6, h7]
  · intro hk67 hfe
    have hie : ((findFirstTag event "e").getD "").isEmpty = true :=
      (String.isEmpty_iff _).mpr hfe
    rcases hk67 with hk | hk
    · rw [updateStats, updateStatsQuery]
      simp [hk, hie]
    · rw [updateStats, updateStatsQuery]
      simp [hk, hie]

/-- C9 witness: a concrete kind-7 reaction referencing event X increments
reactions_count by exactly 1, creating the row from its absent (zero)
state. -/
theorem updateStats_spec_witness :
    eventStatOf (updateStats ⟨[], []⟩ ⟨"r1", 7, "A", 0, "+", [["e", "X"]], "s"⟩) "X"
        EventStat.reactions_count
      = eventStatOf ⟨[], []⟩ "X" EventStat.reactions_count + 1 :=
  ((updateStats_spec ⟨[], []⟩ ⟨"r1", 7, "A", 0, "+", [["e", "X"]], "s"⟩).2.2.1 "X" rfl rfl
    (by decide)).1

set_option maxRecDepth 8000 in
/-- C7 witness: a concrete 250-character tag value is not indexed. -/
theorem valueLengthCeiling_witness :
    ["t", String.mk (List.replicate 250 'a')] ∉
      filterIndexableTags
        ⟨"x", 1, "A", 0, "", [["t", String.mk (List.replicate 250 'a')]], "s"⟩ ⟨false⟩ :=
  valueLengthCeiling _ _ _ (by decide)

end Ditto
